import Mathlib

/-!
Verification of the StockRead analyst services against their specification.

The definitions below are a shallow embedding of the Python sources:
  * `src/services/ai_service.py`         (risk calculation, LLM-response parsing,
                                          pydantic validation of insights)
  * `src/services/global_analyst.py`     (market-open gate, batch partitioning,
                                          daily run-time scheduling)
  * `src/services/response_bot_service.py` (single-post processing and its
                                          database effects)
  * `src/services/market_service.py`     (VIX-based macro sentiment label)
  * `src/core/config.py`                 (enums and defaults)

Machine integers are modelled as `Int`/`Nat` (Python ints are unbounded), the
VIX level as `ℚ` (rational comparisons against the integer thresholds 12, 20,
30, 40 agree with the Python float comparisons, since every float is a
rational), strings as Lean `String` over the ASCII fragment the code uses, and
fallible operations as `Option`.
-/

/-- Python whitespace, as used by `str.strip()` (ASCII fragment). -/
def pyWs (c : Char) : Bool :=
  c = ' ' || c = '\t' || c = '\n' || c = '\r' || c = '\x0b' || c = '\x0c'

/-- JSON whitespace accepted between tokens by Python's `json.loads`
(`' '`, `'\t'`, `'\n'`, `'\r'`). -/
def jsonWs (c : Char) : Bool :=
  c = ' ' || c = '\t' || c = '\n' || c = '\r'

/-- Whitespace matched by `\s` in Python's `re` module (ASCII fragment). -/
def reWs (c : Char) : Bool :=
  c = ' ' || c = '\t' || c = '\n' || c = '\r' || c = '\x0b' || c = '\x0c'

/-- `str.strip()` on a character list: drop leading and trailing whitespace. -/
def pyStripList (cs : List Char) : List Char :=
  ((cs.dropWhile pyWs).reverse.dropWhile pyWs).reverse

/-- Python `str.strip()`. -/
def pyStrip (s : String) : String :=
  ⟨pyStripList s.data⟩

/-- Python `str.capitalize()`: first character upper-cased, the rest
lower-cased (ASCII fragment). -/
def pyCapitalizeList (cs : List Char) : List Char :=
  match cs with
  | [] => []
  | c :: rest => c.toUpper :: rest.map Char.toLower

/-- Python `str.capitalize()`. -/
def pyCapitalize (s : String) : String :=
  ⟨pyCapitalizeList s.data⟩

/-- `src/core/config.py` line 43: `VALID_USER_THESIS`. -/
def validUserThesisValues : List String := ["Bullish", "Bearish", "Neutral"]

/-- `src/core/config.py` line 44: `VALID_RISK_LEVELS`. -/
def validRiskLevelValues : List String := ["Low", "Medium", "High", "Extreme"]

/-- `src/core/config.py` line 45: `DEFAULT_USER_THESIS`. -/
def defaultUserThesis : String := "Neutral"

/-- `src/core/config.py` line 46: `DEFAULT_RISK_LEVEL`. -/
def defaultRiskLevel : String := "Medium"

/-- `src/core/config.py` line 47: `DEFAULT_SENTIMENT_SCORE`. -/
def defaultSentimentScore : Int := 50

/-- `AIService._calculate_risk_from_score` (`src/services/ai_service.py`
lines 104-124): risk level from the sentiment score via fixed bands. -/
def calculateRiskFromScore (sentimentScore : Int) : String :=
  if sentimentScore ≥ 80 then "Low"
  else if sentimentScore ≥ 60 then "Medium"
  else if sentimentScore ≥ 40 then "Medium"
  else if sentimentScore ≥ 20 then "High"
  else "High"

/-- Rank of a risk label under the ordering Low < Medium < High < Extreme. -/
def riskRank (risk : String) : Nat :=
  if risk = "Low" then 0
  else if risk = "Medium" then 1
  else if risk = "High" then 2
  else if risk = "Extreme" then 3
  else 4

/-- `GlobalAnalyst.get_signal_label` (`src/services/global_analyst.py`
lines 172-191); the identical helper also appears in
`src/services/response_bot_service.py` lines 48-67. -/
def getSignalLabel (score : Int) : String :=
  if score ≥ 80 then "Strong Buy"
  else if score ≥ 60 then "Buy"
  else if score ≥ 40 then "Hold"
  else if score ≥ 20 then "Sell"
  else "Strong Sell"

/-- The VIX-threshold classification inside
`MarketDataService.get_macro_context` (`src/services/market_service.py`
lines 64-74).  The VIX level is modelled as a rational. -/
def marketSentimentFromVix (vixPrice : ℚ) : String :=
  if vixPrice < 12 then "Very Calm"
  else if vixPrice < 20 then "Calm"
  else if vixPrice < 30 then "Elevated"
  else if vixPrice < 40 then "High Volatility"
  else "Extreme Fear"

/-- An Eastern-timezone instant as seen by `datetime.now(self.eastern)`:
weekday (`0 = Monday`, ..., `6 = Sunday`, as Python's `weekday()`) together
with the wall-clock time of day. -/
structure ETTime where
  weekday : Nat
  hour : Nat
  minute : Nat
  second : Nat
  micro : Nat
deriving Repr, DecidableEq

/-- Microseconds since midnight; `datetime` comparison of two instants of the
same day reduces to comparing this key. -/
def usOfDay (hour minute second micro : Nat) : Nat :=
  ((hour * 60 + minute) * 60 + second) * 1000000 + micro

/-- Time-of-day key of an `ETTime`. -/
def ETTime.key (t : ETTime) : Nat :=
  usOfDay t.hour t.minute t.second t.micro

/-- `GlobalAnalyst.is_market_open` (`src/services/global_analyst.py`
lines 158-170): weekends are closed; otherwise open iff the time of day lies
in [09:30:00.000000, 16:00:00.000000], both ends inclusive. -/
def isMarketOpen (t : ETTime) : Bool :=
  if t.weekday ≥ 5 then false
  else usOfDay 9 30 0 0 ≤ t.key && t.key ≤ usOfDay 16 0 0 0

/-- The batch loop of `GlobalAnalyst.analyze_all_tickers`
(`src/services/global_analyst.py` lines 547-560):
`for i in range(0, len(ticker_list), batch_size): batch = ticker_list[i:i+batch_size]`.
Implemented with fuel; `fuel = length` suffices whenever `1 ≤ batchSize`. -/
def chunkFuel (batchSize : Nat) : Nat → List α → List (List α)
  | _, [] => []
  | 0, _ :: _ => []
  | fuel + 1, x :: xs => ((x :: xs).take batchSize) :: chunkFuel batchSize fuel ((x :: xs).drop batchSize)

/-- The list of batches produced by `GlobalAnalyst.analyze_all_tickers` for a
given ticker list and batch size. -/
def analyzeAllTickersBatches (tickerList : List String) (batchSize : Nat) : List (List String) :=
  chunkFuel batchSize tickerList.length tickerList

/-- The batch sizes determined by the input length alone (helper mirror of
`chunkFuel` on lengths). -/
def lenChunksFuel (batchSize : Nat) : Nat → Nat → List Nat
  | _, 0 => []
  | 0, _ + 1 => []
  | fuel + 1, n + 1 => min batchSize (n + 1) :: lenChunksFuel batchSize fuel (n + 1 - batchSize)

/-- The validated insight produced by `AIAnalysisResult`
(`src/services/ai_service.py` lines 28-75). -/
structure Insight where
  user_thesis : String
  summary : String
  sentiment_score : Int
  risk_level : String
  tags : List String
deriving Repr, DecidableEq

/-- The dictionary obtained from parsing an LLM response, restricted to the
five fields `AIAnalysisResult` reads (`extra = 'ignore'` drops the rest).
`none` models an absent key; JSON integer scores are modelled as `Int`. -/
structure ParsedResult where
  user_thesis : Option String
  summary : Option String
  sentiment_score : Option Int
  risk_level : Option String
  tags : Option (List String)
deriving Repr, DecidableEq

/-- `AIAnalysisResult.validate_user_thesis` (`src/services/ai_service.py`
lines 36-42). -/
def validateUserThesis (value : String) : String :=
  let normalizedValue := pyCapitalize (pyStrip value)
  if normalizedValue ∈ validUserThesisValues then normalizedValue
  else defaultUserThesis

/-- `AIAnalysisResult.validate_risk_level` (`src/services/ai_service.py`
lines 44-50). -/
def validateRiskLevel (value : String) : String :=
  let normalizedValue := pyCapitalize (pyStrip value)
  if normalizedValue ∈ validRiskLevelValues then normalizedValue
  else defaultRiskLevel

/-- `AIAnalysisResult.validate_tags` (`src/services/ai_service.py`
lines 64-72) on a list value: keep the non-empty strings. -/
def validateTags (value : List String) : List String :=
  value.filter (fun tag => tag ≠ "")

/-- `AIAnalysisResult(**parsed)` (`src/services/ai_service.py` lines 28-75).
pydantic validates each field's type and `Field` constraints before the
class's own `@validator`s run (pydantic post-validators run after the
standard validation); hence a missing required field, or a
`sentiment_score` outside `ge=0, le=100`, raises `ValidationError` and the
clamping `@validator('sentiment_score')` is never reached for such values.
On success the post-validators normalise the fields. -/
def mkAIAnalysisResult (r : ParsedResult) : Option Insight :=
  match r.user_thesis, r.summary, r.sentiment_score, r.risk_level with
  | some ut, some sm, some sc, some rl =>
    if 0 ≤ sc ∧ sc ≤ 100 then
      some { user_thesis := validateUserThesis ut
             summary := sm
             sentiment_score := max 0 (min 100 sc)
             risk_level := validateRiskLevel rl
             tags := validateTags (r.tags.getD []) }
    else none
  | _, _, _, _ => none

/-- `AIService._validate_analysis_result` (`src/services/ai_service.py`
lines 506-543): validate with the pydantic schema; on `ValidationError`,
rebuild a fallback dictionary from partial data (score defaulting to 50 and
risk recomputed from the score) and validate that; `None` if both fail. -/
def validateAnalysisResult (r : ParsedResult) : Option Insight :=
  match mkAIAnalysisResult r with
  | some validated => some validated
  | none =>
    let sentimentScore := r.sentiment_score.getD 50
    let calculatedRisk := calculateRiskFromScore sentimentScore
    let fallbackResult : ParsedResult :=
      { user_thesis := some (r.user_thesis.getD "Neutral")
        summary := some (r.summary.getD "Analysis unavailable")
        sentiment_score := some sentimentScore
        risk_level := some calculatedRisk
        tags := some (r.tags.getD []) }
    mkAIAnalysisResult fallbackResult

/-- The post-parse stage of `AIService.analyze_signal`
(`src/services/ai_service.py` lines 415-430): overwrite the model's
`risk_level` with the value recomputed from the parsed sentiment score
(defaulting to 50 when absent), then validate. -/
def analyzeSignalValidate (parsedResult : ParsedResult) : Option Insight :=
  let sentimentScore := parsedResult.sentiment_score.getD 50
  let calculatedRisk := calculateRiskFromScore sentimentScore
  validateAnalysisResult { parsedResult with risk_level := some calculatedRisk }

/-- JSON values as produced by Python's `json.loads`, restricted to the
fragment the service exchanges: numbers are modelled as integers (a
fractional or exponent part makes the modelled parse fail, which only
narrows the set of accepted inputs). -/
inductive JVal where
  | null
  | bool (b : Bool)
  | num (n : Int)
  | str (s : String)
  | arr (elems : List JVal)
  | obj (members : List (String × JVal))

/-- Hexadecimal digit value, for `\uXXXX` escapes. -/
def hexDigitVal (c : Char) : Option Nat :=
  if '0' ≤ c ∧ c ≤ '9' then some (c.toNat - 48)
  else if 'a' ≤ c ∧ c ≤ 'f' then some (c.toNat - 87)
  else if 'A' ≤ c ∧ c ≤ 'F' then some (c.toNat - 55)
  else none

/-- Decode one JSON string escape (the character after a backslash). -/
def parseEscape : List Char → Option (Char × List Char)
  | '"' :: rest => some ('"', rest)
  | '\\' :: rest => some ('\\', rest)
  | '/' :: rest => some ('/', rest)
  | 'b' :: rest => some ('\x08', rest)
  | 'f' :: rest => some ('\x0c', rest)
  | 'n' :: rest => some ('\n', rest)
  | 'r' :: rest => some ('\r', rest)
  | 't' :: rest => some ('\t', rest)
  | 'u' :: a :: b :: c :: d :: rest =>
    match hexDigitVal a, hexDigitVal b, hexDigitVal c, hexDigitVal d with
    | some x, some y, some z, some v => some (Char.ofNat (((x * 16 + y) * 16 + z) * 16 + v), rest)
    | _, _, _, _ => none
  | _ => none

/-- Body of a JSON string after the opening quote; `json.loads` is strict, so
an unescaped control character is an error. -/
def parseJStringBody : Nat → List Char → List Char → Option (String × List Char)
  | 0, _, _ => none
  | _ + 1, _, [] => none
  | fuel + 1, acc, c :: rest =>
    if c = '"' then some (⟨acc.reverse⟩, rest)
    else if c = '\\' then
      match parseEscape rest with
      | some (ch, rest1) => parseJStringBody fuel (ch :: acc) rest1
      | none => none
    else if c.toNat < 32 then none
    else parseJStringBody fuel (c :: acc) rest

/-- A JSON number in the modelled integer fragment: optional minus, digits
without a redundant leading zero, and no fractional or exponent part. -/
def parseJNumber (cs : List Char) : Option (Int × List Char) :=
  let negAndRest : Bool × List Char :=
    match cs with
    | '-' :: rest => (true, rest)
    | _ => (false, cs)
  let digits := negAndRest.2.takeWhile Char.isDigit
  let rest := negAndRest.2.dropWhile Char.isDigit
  if digits = [] then none
  else if 1 < digits.length ∧ digits.head? = some '0' then none
  else
    match rest with
    | '.' :: _ => none
    | 'e' :: _ => none
    | 'E' :: _ => none
    | _ =>
      let n : Int := Int.ofNat (digits.foldl (fun acc c => acc * 10 + (c.toNat - 48)) 0)
      some (if negAndRest.1 then -n else n, rest)

mutual

/-- One JSON value starting at the head of the input (leading whitespace
already consumed), returning the remainder.  Mirrors the grammar accepted by
Python's `json.loads` on the modelled fragment; in particular, after a comma
an object expects a quoted key and an array expects a value, so a trailing
comma before `}` or `]` is a parse error. -/
def parseValueFuel : Nat → List Char → Option (JVal × List Char)
  | 0, _ => none
  | fuel + 1, cs =>
    match cs with
    | [] => none
    | '"' :: rest => (parseJStringBody fuel [] rest).map (fun p => (JVal.str p.1, p.2))
    | '{' :: rest =>
      match rest.dropWhile jsonWs with
      | '}' :: rest1 => some (JVal.obj [], rest1)
      | rest1 => (parseMembersFuel fuel rest1).map (fun p => (JVal.obj p.1, p.2))
    | '[' :: rest =>
      match rest.dropWhile jsonWs with
      | ']' :: rest1 => some (JVal.arr [], rest1)
      | rest1 => (parseElemsFuel fuel rest1).map (fun p => (JVal.arr p.1, p.2))
    | 't' :: 'r' :: 'u' :: 'e' :: rest => some (JVal.bool true, rest)
    | 'f' :: 'a' :: 'l' :: 's' :: 'e' :: rest => some (JVal.bool false, rest)
    | 'n' :: 'u' :: 'l' :: 'l' :: rest => some (JVal.null, rest)
    | c :: _ =>
      if c = '-' || c.isDigit then (parseJNumber cs).map (fun p => (JVal.num p.1, p.2))
      else none

/-- Object members, positioned at a (quoted) key. -/
def parseMembersFuel : Nat → List Char → Option (List (String × JVal) × List Char)
  | 0, _ => none
  | fuel + 1, cs =>
    match cs with
    | '"' :: rest =>
      match parseJStringBody fuel [] rest with
      | some (key, rest1) =>
        match rest1.dropWhile jsonWs with
        | ':' :: rest2 =>
          match parseValueFuel fuel (rest2.dropWhile jsonWs) with
          | some (v, rest3) =>
            match rest3.dropWhile jsonWs with
            | ',' :: rest4 =>
              (parseMembersFuel fuel (rest4.dropWhile jsonWs)).map
                (fun p => ((key, v) :: p.1, p.2))
            | '}' :: rest4 => some ([(key, v)], rest4)
            | _ => none
          | none => none
        | _ => none
      | none => none
    | _ => none

/-- Array elements, positioned at a value. -/
def parseElemsFuel : Nat → List Char → Option (List JVal × List Char)
  | 0, _ => none
  | fuel + 1, cs =>
    match parseValueFuel fuel cs with
    | some (v, rest) =>
      match rest.dropWhile jsonWs with
      | ',' :: rest1 => (parseElemsFuel fuel (rest1.dropWhile jsonWs)).map (fun p => (v :: p.1, p.2))
      | ']' :: rest1 => some ([v], rest1)
      | _ => none
    | none => none

end

/-- Python's `json.loads` on a character list: skip leading whitespace, parse
one value, and require only whitespace to remain (`Extra data` otherwise). -/
def jsonLoadsList (cs : List Char) : Option JVal :=
  match parseValueFuel (cs.length + 2) (cs.dropWhile jsonWs) with
  | some (v, rest) => if rest.dropWhile jsonWs = [] then some v else none
  | none => none

/-- Python's `json.loads`. -/
def jsonLoads (s : String) : Option JVal :=
  jsonLoadsList s.data

/-- Case-insensitive test for the literal `json` at the head of the input
(the `(?:json)?` part of the strategy-2 pattern, compiled with
`re.IGNORECASE`). -/
def startsWithJsonCI : List Char → Bool
  | j :: s :: o :: n :: _ =>
    j.toLower = 'j' && s.toLower = 's' && o.toLower = 'o' && n.toLower = 'n'
  | _ => false

/-- Does `\s*` followed by a closing fence ``` match here?  (Only the maximal
whitespace run can be followed by a backtick, so greedy matching with
backtracking reduces to this test.) -/
def fenceFollows (cs : List Char) : Bool :=
  match cs.dropWhile reWs with
  | '`' :: '`' :: '`' :: _ => true
  | _ => false

/-- Lazy `.*?` scan of the strategy-2 pattern: the capture ends at the first
`}` that is followed by optional whitespace and a closing fence.  Returns the
characters strictly between the braces. -/
def findLazyClose : List Char → List Char → Option (List Char)
  | _, [] => none
  | acc, c :: rest =>
    if c = '}' && fenceFollows rest then some acc.reverse
    else findLazyClose (c :: acc) rest

/-- Attempt the strategy-2 regex at a position just after an opening ``` :
optional `json` (case-insensitive), optional whitespace, then the lazy brace
capture. -/
def fencedTryMatch (afterTicks : List Char) : Option (List Char) :=
  let cs1 := if startsWithJsonCI afterTicks then afterTicks.drop 4 else afterTicks
  match cs1.dropWhile reWs with
  | '{' :: rest => (findLazyClose [] rest).map (fun mid => '{' :: (mid ++ ['}']))
  | _ => none

/-- `re.search` of the strategy-2 pattern: try each start position left to
right, returning the first capture group. -/
def fencedSearchList : List Char → Option (List Char)
  | [] => none
  | c :: rest =>
    match (match c, rest with
           | '`', '`' :: '`' :: afterTicks => fencedTryMatch afterTicks
           | _, _ => none) with
    | some cap => some cap
    | none => fencedSearchList rest

/-- Strategy 2 of `AIService._parse_llm_response`
(`src/services/ai_service.py` lines 472-478): extract JSON from a fenced
markdown code block via
`re.search(r'```(?:json)?\s*(\{.*?\})\s*```', raw_text, re.DOTALL | re.IGNORECASE)`
and decode the capture. -/
def llmStrategyFenced (rawText : String) : Option JVal :=
  match fencedSearchList rawText.data with
  | some cap => jsonLoadsList cap
  | none => none

/-- Strategy 3 of `AIService._parse_llm_response`
(`src/services/ai_service.py` lines 480-489): decode the span from the first
`{` to the last `}` when the latter comes strictly later. -/
def llmStrategyBraceSpan (rawText : String) : Option JVal :=
  let cs := rawText.data
  let startIdx := cs.findIdx? (fun x => x = '{')
  let endIdx := (cs.reverse.findIdx? (fun x => x = '}')).map (fun i => cs.length - 1 - i)
  match startIdx, endIdx with
  | some s, some e =>
    if s < e then jsonLoadsList ((cs.drop s).take (e + 1 - s)) else none
  | _, _ => none

/-- `re.sub(r'```json\s*', '', cleaned, flags=re.IGNORECASE)`: remove every
occurrence of an opening fence tagged `json` together with the following
whitespace, scanning left to right (non-overlapping, continuing after each
match). -/
def subFenceJsonList : Nat → List Char → List Char
  | 0, cs => cs
  | _ + 1, [] => []
  | fuel + 1, c :: rest =>
    match c, rest with
    | '`', '`' :: '`' :: t =>
      if startsWithJsonCI t then subFenceJsonList fuel ((t.drop 4).dropWhile reWs)
      else c :: subFenceJsonList fuel rest
    | _, _ => c :: subFenceJsonList fuel rest

/-- `re.sub(r'```\s*', '', cleaned)`: remove every fence together with the
following whitespace. -/
def subFenceList : Nat → List Char → List Char
  | 0, cs => cs
  | _ + 1, [] => []
  | fuel + 1, c :: rest =>
    match c, rest with
    | '`', '`' :: '`' :: t => subFenceList fuel (t.dropWhile reWs)
    | _, _ => c :: subFenceList fuel rest

/-- Strategy 4 of `AIService._parse_llm_response`
(`src/services/ai_service.py` lines 491-501): strip the text, remove markdown
fences, and decode again.  Despite the `Remove trailing commas, fix quotes,
etc.` comment in the source, the code performs no comma or quote repair —
only the two fence substitutions above. -/
def llmStrategyCleanup (rawText : String) : Option JVal :=
  let cleaned := pyStripList rawText.data
  let cleaned1 := subFenceJsonList cleaned.length cleaned
  let cleaned2 := subFenceList cleaned1.length cleaned1
  jsonLoadsList cleaned2

/-- `AIService._parse_llm_response` (`src/services/ai_service.py`
lines 451-504): empty or whitespace-only input fails at once; otherwise the
four strategies run in order and the first success wins. -/
def parseLlmResponse (rawText : String) : Option JVal :=
  if rawText.data = [] ∨ (pyStrip rawText).data = [] then none
  else
    match jsonLoads rawText with
    | some v => some v
    | none =>
      match llmStrategyFenced rawText with
      | some v => some v
      | none =>
        match llmStrategyBraceSpan rawText with
        | some v => some v
        | none => llmStrategyCleanup rawText

/-- Result of `MarketDataService.get_macro_context`
(`src/services/market_service.py` lines 53-82): the rounded VIX level
(`none` models the `"N/A"` fallback row) and the sentiment label. -/
structure MacroContext where
  vix : Option ℚ
  market_sentiment : String
deriving Repr, DecidableEq

/-- The fields of a `get_price_context` market-data snapshot that
`ResponseBotService.process_single_post` and `_update_ticker_insights`
read; the snapshot's remaining fields are not consumed by the claims under
verification and are omitted.  Numeric fields already hold numbers or
`None`, so `safe_float` acts as the identity on them. -/
structure MarketData where
  price : Option ℚ
  market_cap : Option ℚ
  pe_ratio : Option ℚ
  recommendationKey : Option String
  targetMean : Option ℚ
  shortPercentOfFloat : Option ℚ
  heldPercentInsiders : Option ℚ
deriving Repr, DecidableEq

/-- A value stored into a column of the `posts` table. -/
inductive FieldVal where
  | intv (n : Int)
  | ratv (q : ℚ)
  | strv (s : String)
  | nullv
  | rawMarketData (md : MarketData)
deriving Repr, DecidableEq

/-- The `ticker_insights` row built by
`ResponseBotService._update_ticker_insights`
(`src/services/response_bot_service.py` lines 214-247); `updated_at` is a
wall-clock timestamp and is outside the model. -/
structure TickerInsightRow where
  ticker : String
  ai_score : Int
  ai_signal : String
  ai_risk : String
  ai_summary : String
  current_price : Option ℚ
  market_cap : Option ℚ
  pe_ratio : Option ℚ
  analyst_rating : Option String
  target_price : Option ℚ
  short_float : Option ℚ
  insider_held : Option ℚ
  vix : Option ℚ
  market_sentiment : Option String
deriving Repr, DecidableEq

/-- A database write attempted by the response bot. -/
inductive DbEffect where
  | updatePost (postId : Int) (fields : List (String × FieldVal))
  | upsertTickerInsight (ticker : String) (row : TickerInsightRow)
  | incrementReputation (userId : String) (points : Int)
deriving Repr, DecidableEq

/-- Is this effect a write to the `ticker_insights` table? -/
def DbEffect.isTickerInsightWrite : DbEffect → Bool
  | DbEffect.upsertTickerInsight _ _ => true
  | _ => false

/-- `float(market_data.get(k)) if market_data.get(k) else None`: Python
truthiness maps both `None` and `0` to `None`. -/
def truthyFloatField (v : Option ℚ) : FieldVal :=
  match v with
  | some q => if q = 0 then FieldVal.nullv else FieldVal.ratv q
  | none => FieldVal.nullv

/-- An optional string column value. -/
def optStrField (v : Option String) : FieldVal :=
  match v with
  | some s => FieldVal.strv s
  | none => FieldVal.nullv

/-- The `posts` update written on a successful analysis
(`src/services/response_bot_service.py` lines 157-167). -/
def postUpdateFields (insight : Insight) (md : MarketData) : List (String × FieldVal) :=
  [("ai_score", FieldVal.intv insight.sentiment_score),
   ("ai_risk", FieldVal.strv insight.risk_level),
   ("user_sentiment_label", FieldVal.strv insight.user_thesis),
   ("ai_summary", FieldVal.strv ("AI Analysis:\n" ++ insight.summary)),
   ("raw_market_data", FieldVal.rawMarketData md),
   ("analyst_rating", optStrField md.recommendationKey),
   ("target_price", truthyFloatField md.targetMean),
   ("short_float", truthyFloatField md.shortPercentOfFloat),
   ("insider_held", truthyFloatField md.heldPercentInsiders)]

/-- The `posts` update written when the AI service is unavailable
(`src/services/response_bot_service.py` lines 129-137). -/
def noAiUpdateFields (md : MarketData) : List (String × FieldVal) :=
  [("raw_market_data", FieldVal.rawMarketData md),
   ("analyst_rating", optStrField md.recommendationKey),
   ("target_price", truthyFloatField md.targetMean),
   ("short_float", truthyFloatField md.shortPercentOfFloat),
   ("insider_held", truthyFloatField md.heldPercentInsiders),
   ("ai_score", FieldVal.nullv),
   ("ai_summary", FieldVal.strv "AI analysis unavailable - GOOGLE_API_KEY not configured")]

/-- `ResponseBotService._update_ticker_insights`
(`src/services/response_bot_service.py` lines 214-247): the row upserted by
ticker.  `int(round(...))` on the already-integral score is the identity. -/
def updateTickerInsightsRow (ticker : String) (insight : Insight) (md : MarketData)
    (macroCtx : Option MacroContext) : TickerInsightRow :=
  { ticker := ticker
    ai_score := insight.sentiment_score
    ai_signal := getSignalLabel insight.sentiment_score
    ai_risk := insight.risk_level
    ai_summary := insight.summary
    current_price := md.price
    market_cap := md.market_cap
    pe_ratio := md.pe_ratio
    analyst_rating := md.recommendationKey
    target_price := md.targetMean
    short_float := md.shortPercentOfFloat
    insider_held := md.heldPercentInsiders
    vix := macroCtx.bind MacroContext.vix
    market_sentiment := macroCtx.map MacroContext.market_sentiment }

/-- The reputation award of `process_single_post`
(`src/services/response_bot_service.py` lines 177-201): 10 points when the
user's thesis agrees with the score; the RPC and its read-modify-write
fallback both amount to one increment. -/
def reputationEffects (postUserId : Option String) (insight : Insight) : List DbEffect :=
  match postUserId with
  | none => []
  | some userId =>
    let reputationPoints : Int :=
      if insight.user_thesis = "Bullish" ∧ insight.sentiment_score > 60 then 10
      else if insight.user_thesis = "Bearish" ∧ insight.sentiment_score < 40 then 10
      else 0
    if reputationPoints > 0 then [DbEffect.incrementReputation userId reputationPoints]
    else []

/-- The external state `process_single_post` reads for one job: the post row,
the macro context, the market-data snapshot for the ticker (`none` when the
gateway has no data), AI availability, and the insight `analyze_signal`
returns when invoked. -/
structure PostWorld where
  postId : Int
  ticker : String
  postUserId : Option String
  macroCtx : Option MacroContext
  marketData : Option MarketData
  aiAvailable : Bool
  aiInsight : Option Insight
deriving Repr, DecidableEq

/-- `ResponseBotService.process_single_post`
(`src/services/response_bot_service.py` lines 102-212) as a pure function
from the world it reads to its return value and the list of database writes
it attempts, in order. -/
def processSinglePost (w : PostWorld) : Bool × List DbEffect :=
  match w.marketData with
  | none =>
    (false,
     [DbEffect.updatePost w.postId
        [("ai_score", FieldVal.intv (-1)), ("ai_summary", FieldVal.strv "Invalid Ticker")]])
  | some md =>
    if w.aiAvailable = false then
      (true, [DbEffect.updatePost w.postId (noAiUpdateFields md)])
    else
      match w.aiInsight with
      | some insight =>
        (true,
         DbEffect.updatePost w.postId (postUpdateFields insight md)
           :: DbEffect.upsertTickerInsight w.ticker
                (updateTickerInsightsRow w.ticker insight md w.macroCtx)
           :: reputationEffects w.postUserId insight)
      | none => (false, [])

/-- A wake-up instant of the `run_continuous` scheduler loop: an abstract
index identifying the current date (`now_et.date()`), the weekday, and the
wall-clock time of day. -/
structure WakeTime where
  dateIdx : Nat
  weekday : Nat
  hour : Nat
  minute : Nat
  second : Nat
  micro : Nat
deriving Repr, DecidableEq

/-- The Eastern-time instant of a wake-up. -/
def WakeTime.et (w : WakeTime) : ETTime :=
  { weekday := w.weekday, hour := w.hour, minute := w.minute,
    second := w.second, micro := w.micro }

/-- `src/services/global_analyst.py` line 596: the fixed daily target times
(hour, minute) in Eastern time. -/
def targetTimes : List (Nat × Nat) := [(10, 0), (12, 0), (14, 30)]

/-- Outcome of one iteration of the `run_continuous` loop body. -/
structure SchedStep where
  ran : Bool
  ranTargetHour : Option Nat
  newLastRunDate : Option Nat
deriving Repr, DecidableEq

/-- One iteration of the `while True` loop of `GlobalAnalyst.run_continuous`
(`src/services/global_analyst.py` lines 600-668), given the `last_run_date`
state and the wake-up instant: when the market is closed the marker resets
and nothing runs; otherwise the next target strictly after the current time
is selected (tomorrow 09:30 when all of today's targets have passed), and
the batch run fires iff the absolute distance to that target is under 300
seconds and `last_run_date != current_date`; on firing, `last_run_date` is
set to the current date. -/
def runContinuousStep (lastRunDate : Option Nat) (w : WakeTime) : SchedStep :=
  if isMarketOpen w.et = false then
    { ran := false, ranTargetHour := none, newLastRunDate := none }
  else
    let nowKey := usOfDay w.hour w.minute w.second w.micro
    let nextRun : Nat × Option Nat :=
      match targetTimes.find? (fun t => nowKey < usOfDay t.1 t.2 0 0) with
      | some t => (usOfDay t.1 t.2 0 0, some t.1)
      | none => (86400000000 + usOfDay 9 30 0 0, none)
    let timeDiffAbs := nextRun.1 - nowKey
    if timeDiffAbs < 300000000 ∧ lastRunDate ≠ some w.dateIdx then
      { ran := true, ranTargetHour := nextRun.2, newLastRunDate := some w.dateIdx }
    else
      { ran := false, ranTargetHour := nextRun.2, newLastRunDate := lastRunDate }

theorem chunkFuel_nil (bs f : Nat) : chunkFuel (α := α) bs f [] = [] := by
  cases f <;> rfl

theorem chunkFuel_flatten (bs : Nat) (hbs : 1 ≤ bs) :
    ∀ (f : Nat) (l : List α), l.length ≤ f → (chunkFuel bs f l).flatten = l := by
  intro f
  induction f with
  | zero =>
    intro l hl
    cases l with
    | nil => rfl
    | cons x xs => simp at hl
  | succ f ih =>
    intro l hl
    cases l with
    | nil => rfl
    | cons x xs =>
      have hdrop : ((x :: xs).drop bs).length ≤ f := by
        rw [List.length_drop]
        simp only [List.length_cons] at hl ⊢
        omega
      simp only [chunkFuel, List.flatten_cons]
      rw [ih _ hdrop, List.take_append_drop]

theorem chunkFuel_mem (bs : Nat) (hbs : 1 ≤ bs) :
    ∀ (f : Nat) (l : List α), ∀ c ∈ chunkFuel bs f l, c.length ≤ bs ∧ c ≠ [] := by
  intro f
  induction f with
  | zero =>
    intro l c hc
    cases l with
    | nil => simp [chunkFuel] at hc
    | cons x xs => simp [chunkFuel] at hc
  | succ f ih =>
    intro l c hc
    cases l with
    | nil => simp [chunkFuel] at hc
    | cons x xs =>
      simp only [chunkFuel, List.mem_cons] at hc
      rcases hc with hc | hc
      · subst hc
        constructor
        · rw [List.length_take]; omega
        · obtain ⟨b, rfl⟩ := Nat.exists_eq_add_of_le hbs
          simp [List.take_cons]
      · exact ih _ c hc

theorem chunkFuel_dropLast (bs : Nat) (hbs : 1 ≤ bs) :
    ∀ (f : Nat) (l : List α), l.length ≤ f →
      ∀ c ∈ (chunkFuel bs f l).dropLast, c.length = bs := by
  intro f
  induction f with
  | zero =>
    intro l hl c hc
    cases l with
    | nil => simp [chunkFuel] at hc
    | cons x xs => simp at hl
  | succ f ih =>
    intro l hl c hc
    cases l with
    | nil => simp [chunkFuel] at hc
    | cons x xs =>
      simp only [chunkFuel] at hc
      cases htl : chunkFuel bs f ((x :: xs).drop bs) with
      | nil => rw [htl] at hc; simp at hc
      | cons c0 tl =>
        rw [htl, List.dropLast_cons₂, List.mem_cons] at hc
        have hdropne : (x :: xs).drop bs ≠ [] := by
          intro hnil
          rw [hnil, chunkFuel_nil] at htl
          exact List.noConfusion htl
        have hlen : bs < (x :: xs).length := by
          have := List.length_pos.mpr hdropne
          rw [List.length_drop] at this
          omega
        have hdrop : ((x :: xs).drop bs).length ≤ f := by
          rw [List.length_drop]
          simp only [List.length_cons] at hl ⊢
          omega
        rcases hc with hc | hc
        · subst hc
          rw [List.length_take]
          omega
        · exact ih _ hdrop c (htl ▸ hc)

theorem chunkFuel_map_length (bs : Nat) (hbs : 1 ≤ bs) :
    ∀ (f : Nat) (l : List α), l.length ≤ f →
      (chunkFuel bs f l).map List.length = lenChunksFuel bs f l.length := by
  intro f
  induction f with
  | zero =>
    intro l hl
    cases l with
    | nil => rfl
    | cons x xs => simp at hl
  | succ f ih =>
    intro l hl
    cases l with
    | nil => rfl
    | cons x xs =>
      have hdrop : ((x :: xs).drop bs).length ≤ f := by
        rw [List.length_drop]
        simp only [List.length_cons] at hl ⊢
        omega
      simp only [chunkFuel, List.map_cons, List.length_take, List.length_cons]
      rw [ih _ hdrop, List.length_drop]
      simp [lenChunksFuel]

/-- Claim C7: for every ticker list and positive batch size, the batch loop
of `analyze_all_tickers` partitions the list into contiguous chunks: their
concatenation is the input list, every chunk except possibly the last has
length exactly the batch size, every chunk is nonempty and no longer than
the batch size, and for duplicate-free inputs no ticker occurs in two
chunks; moreover every 37-element list with batch size 10 yields batches of
sizes [10, 10, 10, 7]. -/
theorem batch_partitioning_correct :
    (∀ (l : List String) (bs : Nat), 1 ≤ bs →
      (analyzeAllTickersBatches l bs).flatten = l ∧
      (∀ c ∈ (analyzeAllTickersBatches l bs).dropLast, c.length = bs) ∧
      (∀ c ∈ analyzeAllTickersBatches l bs, c.length ≤ bs ∧ c ≠ []) ∧
      (l.Nodup → (analyzeAllTickersBatches l bs).Pairwise List.Disjoint)) ∧
    (∀ l : List String, l.length = 37 →
      (analyzeAllTickersBatches l 10).map List.length = [10, 10, 10, 7]) := by
  constructor
  · intro l bs hbs
    refine ⟨chunkFuel_flatten bs hbs _ l le_rfl,
            chunkFuel_dropLast bs hbs _ l le_rfl,
            chunkFuel_mem bs hbs _ l, ?_⟩
    intro hnd
    have hfl : (analyzeAllTickersBatches l bs).flatten = l :=
      chunkFuel_flatten bs hbs _ l le_rfl
    have : (analyzeAllTickersBatches l bs).flatten.Nodup := by rw [hfl]; exact hnd
    exact (List.nodup_flatten.mp this).2
  · intro l hl
    have h := chunkFuel_map_length 10 (by decide) l.length l le_rfl
    rw [analyzeAllTickersBatches, h, hl]
    decide

/-- Witness for C7 at concrete inputs. -/
theorem batch_partitioning_correct_witness :
    (analyzeAllTickersBatches ["A", "B", "C"] 2).flatten = ["A", "B", "C"] ∧
    (analyzeAllTickersBatches (List.replicate 37 "T") 10).map List.length = [10, 10, 10, 7] :=
  ⟨(batch_partitioning_correct.1 ["A", "B", "C"] 2 (by decide)).1,
   batch_partitioning_correct.2 (List.replicate 37 "T") (by decide)⟩

/-- Claim C6: the market-open gate is a pure function of weekday and time of
day with 09:29 Monday closed, 09:30 Monday open, 16:00 Monday open
(inclusive close), 16:01 Monday closed, and every Saturday or Sunday instant
closed regardless of the time of day. -/
theorem market_open_gate_correct :
    isMarketOpen ⟨0, 9, 29, 0, 0⟩ = false ∧
    isMarketOpen ⟨0, 9, 30, 0, 0⟩ = true ∧
    isMarketOpen ⟨0, 16, 0, 0, 0⟩ = true ∧
    isMarketOpen ⟨0, 16, 1, 0, 0⟩ = false ∧
    (∀ hr mi se us : Nat,
      isMarketOpen ⟨5, hr, mi, se, us⟩ = false ∧ isMarketOpen ⟨6, hr, mi, se, us⟩ = false) := by
  refine ⟨by decide, by decide, by decide, by decide, ?_⟩
  intro hr mi se us
  exact ⟨rfl, rfl⟩

theorem riskRank_eval_low : riskRank "Low" = 0 := by decide

theorem riskRank_eval_medium : riskRank "Medium" = 1 := by decide

theorem riskRank_eval_high : riskRank "High" = 2 := by decide

/-- Claim C8: under the ordering Low < Medium < High < Extreme, the risk
computed by `_calculate_risk_from_score` is monotonically non-increasing in
the score, and the function is deterministic in its score argument alone. -/
theorem risk_from_score_monotone :
    (∀ s t : Int, s ≤ t →
      riskRank (calculateRiskFromScore t) ≤ riskRank (calculateRiskFromScore s)) ∧
    (∀ s t : Int, s = t → calculateRiskFromScore s = calculateRiskFromScore t) := by
  constructor
  · intro s t hst
    unfold calculateRiskFromScore
    split_ifs <;>
      simp only [riskRank_eval_low, riskRank_eval_medium, riskRank_eval_high] <;>
      omega
  · intro s t h
    rw [h]

/-- Witness for C8 at concrete scores. -/
theorem risk_from_score_monotone_witness :
    riskRank (calculateRiskFromScore 50) ≤ riskRank (calculateRiskFromScore 10) :=
  risk_from_score_monotone.1 10 50 (by decide)

/-- Claim C9: the macro market-sentiment label is the fixed threshold
classification of the VIX value alone: below 12 it is "Very Calm", at or
above 40 it is "Extreme Fear", and the intermediate bands are [12, 20)
"Calm", [20, 30) "Elevated", and [30, 40) "High Volatility". -/
theorem vix_sentiment_classification :
    (∀ v : ℚ, v < 12 → marketSentimentFromVix v = "Very Calm") ∧
    (∀ v : ℚ, 12 ≤ v → v < 20 → marketSentimentFromVix v = "Calm") ∧
    (∀ v : ℚ, 20 ≤ v → v < 30 → marketSentimentFromVix v = "Elevated") ∧
    (∀ v : ℚ, 30 ≤ v → v < 40 → marketSentimentFromVix v = "High Volatility") ∧
    (∀ v : ℚ, 40 ≤ v → marketSentimentFromVix v = "Extreme Fear") := by
  refine ⟨?_, ?_, ?_, ?_, ?_⟩ <;>
    intro v <;> intros <;> unfold marketSentimentFromVix <;> split_ifs <;>
    first
    | rfl
    | linarith

/-- Witness for C9 at concrete VIX values. -/
theorem vix_sentiment_classification_witness :
    marketSentimentFromVix 10 = "Very Calm" ∧ marketSentimentFromVix 45 = "Extreme Fear" :=
  ⟨vix_sentiment_classification.1 10 (by norm_num),
   vix_sentiment_classification.2.2.2.2 45 (by norm_num)⟩

theorem calculateRiskFromScore_vals (s : Int) :
    calculateRiskFromScore s = "Low" ∨ calculateRiskFromScore s = "Medium" ∨
      calculateRiskFromScore s = "High" := by
  unfold calculateRiskFromScore
  split_ifs <;> simp

theorem validateRiskLevel_of_riskFromScore (s : Int) :
    validateRiskLevel (calculateRiskFromScore s) = calculateRiskFromScore s := by
  rcases calculateRiskFromScore_vals s with h | h | h <;> rw [h] <;> decide

theorem mkAIAnalysisResult_some (r : ParsedResult) (i : Insight)
    (h : mkAIAnalysisResult r = some i) :
    ∃ ut sm sc rl, r.user_thesis = some ut ∧ r.summary = some sm ∧
      r.sentiment_score = some sc ∧ r.risk_level = some rl ∧
      0 ≤ sc ∧ sc ≤ 100 ∧
      i = ⟨validateUserThesis ut, sm, max 0 (min 100 sc), validateRiskLevel rl,
           validateTags (r.tags.getD [])⟩ := by
  rcases r with ⟨ut0, sm0, sc0, rl0, tg0⟩
  cases ut0 with
  | none => simp [mkAIAnalysisResult] at h
  | some ut =>
    cases sm0 with
    | none => simp [mkAIAnalysisResult] at h
    | some sm =>
      cases sc0 with
      | none => simp [mkAIAnalysisResult] at h
      | some sc =>
        cases rl0 with
        | none => simp [mkAIAnalysisResult] at h
        | some rl =>
          simp only [mkAIAnalysisResult] at h
          split_ifs at h with hb
          exact ⟨ut, sm, sc, rl, rfl, rfl, rfl, rfl, hb.1, hb.2, (Option.some.inj h).symm⟩

theorem analyzeSignalValidate_spec (r : ParsedResult) (i : Insight)
    (h : analyzeSignalValidate r = some i) :
    i.sentiment_score = r.sentiment_score.getD 50 ∧
    i.risk_level = calculateRiskFromScore (r.sentiment_score.getD 50) := by
  simp only [analyzeSignalValidate, validateAnalysisResult] at h
  split at h
  next v heq =>
    obtain ⟨ut, sm, sc, rl, h1, h2, h3, h4, hb0, hb1, hi⟩ := mkAIAnalysisResult_some _ _ heq
    rcases Option.some.inj h with rfl
    have hsc : r.sentiment_score = some sc := h3
    have hrl : calculateRiskFromScore (r.sentiment_score.getD 50) = rl := Option.some.inj h4
    subst hi
    constructor
    · show max 0 (min 100 sc) = r.sentiment_score.getD 50
      rw [hsc, Option.getD_some]
      omega
    · show validateRiskLevel rl = calculateRiskFromScore (r.sentiment_score.getD 50)
      rw [← hrl]
      exact validateRiskLevel_of_riskFromScore _
  next heq =>
    obtain ⟨ut, sm, sc, rl, h1, h2, h3, h4, hb0, hb1, hi⟩ := mkAIAnalysisResult_some _ _ h
    have hsc : r.sentiment_score.getD 50 = sc := Option.some.inj h3
    have hrl : calculateRiskFromScore (r.sentiment_score.getD 50) = rl := Option.some.inj h4
    subst hi
    constructor
    · show max 0 (min 100 sc) = r.sentiment_score.getD 50
      rw [hsc]
      omega
    · show validateRiskLevel rl = calculateRiskFromScore (r.sentiment_score.getD 50)
      rw [← hrl]
      exact validateRiskLevel_of_riskFromScore _

/-- Claim C5: every insight returned by the post-parse stage of
`analyze_signal` carries the risk level recomputed from its final sentiment
score by the fixed score bands, regardless of the model's proposed risk; in
particular, a parsed response with sentiment score 92 yields risk "Low",
and the `ticker_insights` row built from such an insight carries score 92
and risk "Low". -/
theorem analyze_signal_risk_recomputed :
    (∀ (r : ParsedResult) (i : Insight), analyzeSignalValidate r = some i →
      i.risk_level = calculateRiskFromScore i.sentiment_score) ∧
    (∀ (r : ParsedResult) (i : Insight), r.sentiment_score = some 92 →
      analyzeSignalValidate r = some i →
      i.sentiment_score = 92 ∧ i.risk_level = "Low" ∧
      (∀ (md : MarketData) (mc : Option MacroContext),
        (updateTickerInsightsRow "ACME" i md mc).ai_score = 92 ∧
        (updateTickerInsightsRow "ACME" i md mc).ai_risk = "Low")) := by
  constructor
  · intro r i h
    obtain ⟨hs, hr⟩ := analyzeSignalValidate_spec r i h
    rw [hs, hr]
  · intro r i h92 h
    obtain ⟨hs, hr⟩ := analyzeSignalValidate_spec r i h
    rw [h92] at hs hr
    simp only [Option.getD_some] at hs hr
    have hrisk : i.risk_level = "Low" := by rw [hr]; decide
    refine ⟨hs, hrisk, ?_⟩
    intro md mc
    constructor
    · simp [updateTickerInsightsRow, hs]
    · simp [updateTickerInsightsRow, hrisk]

/-- Witness for C5 at a concrete parsed response. -/
theorem analyze_signal_risk_recomputed_witness :
    analyzeSignalValidate ⟨some "Bullish", some "ok", some 92, some "Extreme", some []⟩ =
      some ⟨"Bullish", "ok", 92, "Low", []⟩ ∧
    Insight.risk_level ⟨"Bullish", "ok", 92, "Low", []⟩ = calculateRiskFromScore 92 := by
  constructor
  · rfl
  · have := analyze_signal_risk_recomputed.1
      ⟨some "Bullish", some "ok", some 92, some "Extreme", some []⟩
      ⟨"Bullish", "ok", 92, "Low", []⟩ rfl
    simpa using this

/-- Claim C10: `_calculate_risk_from_score` only ever returns "Low",
"Medium" or "High" — never "Extreme" — so every insight produced by the
post-parse stage of `analyze_signal` has its risk level in that three-value
set, although the configured risk enum also contains "Extreme". -/
theorem risk_never_extreme :
    (∀ s : Int, calculateRiskFromScore s = "Low" ∨ calculateRiskFromScore s = "Medium" ∨
      calculateRiskFromScore s = "High") ∧
    (∀ s : Int, calculateRiskFromScore s ≠ "Extreme") ∧
    (∀ (r : ParsedResult) (i : Insight), analyzeSignalValidate r = some i →
      i.risk_level = "Low" ∨ i.risk_level = "Medium" ∨ i.risk_level = "High") ∧
    "Extreme" ∈ validRiskLevelValues := by
  refine ⟨calculateRiskFromScore_vals, ?_, ?_, by decide⟩
  · intro s
    rcases calculateRiskFromScore_vals s with h | h | h <;> rw [h] <;> decide
  · intro r i h
    obtain ⟨_, hr⟩ := analyzeSignalValidate_spec r i h
    rw [hr]
    exact calculateRiskFromScore_vals _

/-- Witness for C10 at a concrete parsed response. -/
theorem risk_never_extreme_witness :
    Insight.risk_level ⟨"Neutral", "Analysis unavailable", 50, "Medium", []⟩ = "Low" ∨
    Insight.risk_level ⟨"Neutral", "Analysis unavailable", 50, "Medium", []⟩ = "Medium" ∨
    Insight.risk_level ⟨"Neutral", "Analysis unavailable", 50, "Medium", []⟩ = "High" :=
  risk_never_extreme.2.2.1 ⟨none, none, none, none, none⟩
    ⟨"Neutral", "Analysis unavailable", 50, "Medium", []⟩ rfl

/-- Claim C2: when the market-data gateway has no data for the job's ticker,
`process_single_post` writes exactly the sentinel fields
`ai_score = -1, ai_summary = "Invalid Ticker"` to the referenced post,
returns `False` without retrying, and attempts no `ticker_insights` write;
in particular for post 42 with ticker "ZZZZ". -/
theorem invalid_ticker_sentinel :
    (∀ w : PostWorld, w.marketData = none →
      processSinglePost w =
        (false,
         [DbEffect.updatePost w.postId
            [("ai_score", FieldVal.intv (-1)),
             ("ai_summary", FieldVal.strv "Invalid Ticker")]]) ∧
      ∀ e ∈ (processSinglePost w).2, e.isTickerInsightWrite = false) ∧
    processSinglePost ⟨42, "ZZZZ", none, none, none, true, none⟩ =
      (false,
       [DbEffect.updatePost 42
          [("ai_score", FieldVal.intv (-1)),
           ("ai_summary", FieldVal.strv "Invalid Ticker")]]) := by
  constructor
  · intro w h
    have hp : processSinglePost w =
        (false,
         [DbEffect.updatePost w.postId
            [("ai_score", FieldVal.intv (-1)),
             ("ai_summary", FieldVal.strv "Invalid Ticker")]]) := by
      unfold processSinglePost
      rw [h]
    refine ⟨hp, ?_⟩
    intro e he
    rw [hp] at he
    simp only [List.mem_singleton] at he
    subst he
    rfl
  · rfl

/-- Witness for C2 at a concrete world. -/
theorem invalid_ticker_sentinel_witness :
    processSinglePost ⟨7, "QQQQ", some "u1", none, none, true, none⟩ =
      (false,
       [DbEffect.updatePost 7
          [("ai_score", FieldVal.intv (-1)),
           ("ai_summary", FieldVal.strv "Invalid Ticker")]]) :=
  (invalid_ticker_sentinel.1 ⟨7, "QQQQ", some "u1", none, none, true, none⟩ rfl).1

theorem pyStripList_eq_nil (cs : List Char) (h : pyStripList cs = []) :
    ∀ c ∈ cs, pyWs c = true := by
  unfold pyStripList at h
  have h1 : (cs.dropWhile pyWs).reverse.dropWhile pyWs = [] := by
    rwa [List.reverse_eq_nil_iff] at h
  have h2 : ∀ c ∈ (cs.dropWhile pyWs).reverse, pyWs c := List.dropWhile_eq_nil_iff.mp h1
  have h3 : ∀ c ∈ cs.dropWhile pyWs, pyWs c := fun c hc => h2 c (List.mem_reverse.mpr hc)
  intro c hc
  rw [← List.takeWhile_append_dropWhile (p := pyWs) (l := cs), List.mem_append] at hc
  rcases hc with hc | hc
  · exact List.mem_takeWhile_imp hc
  · exact h3 c hc

theorem dropWhile_head_neg (p : Char → Bool) (c : Char) (rest : List Char) :
    ∀ l : List Char, l.dropWhile p = c :: rest → p c = false := by
  intro l
  induction l with
  | nil => intro h0; simp at h0
  | cons a as ih =>
    intro h0
    rw [List.dropWhile_cons] at h0
    split_ifs at h0 with hpa
    · exact ih h0
    · obtain ⟨rfl, rfl⟩ := List.cons.inj h0
      simpa using hpa

theorem jsonLoadsList_of_all_ws (cs : List Char) (h : ∀ c ∈ cs, pyWs c = true) :
    jsonLoadsList cs = none := by
  unfold jsonLoadsList
  cases hd : cs.dropWhile jsonWs with
  | nil => rfl
  | cons c rest =>
    have hcin : c ∈ cs := (List.dropWhile_suffix jsonWs).subset (hd ▸ List.mem_cons_self c rest)
    have hw := h c hcin
    have hnj : jsonWs c = false := dropWhile_head_neg jsonWs c rest cs hd
    have hcc : c = '\x0b' ∨ c = '\x0c' := by
      simp only [pyWs, Bool.or_eq_true, decide_eq_true_eq] at hw
      simp only [jsonWs, Bool.or_eq_false_iff, decide_eq_false_iff_not] at hnj
      tauto
    rcases hcc with rfl | rfl <;> rfl

theorem direct_json_first_strategy (s : String) (v : JVal) (h : jsonLoads s = some v) :
    parseLlmResponse s = some v := by
  have hguard : ¬ (s.data = [] ∨ (pyStrip s).data = []) := by
    rintro (h0 | h0)
    · unfold jsonLoads at h
      rw [h0] at h
      have hnil : jsonLoadsList [] = none := rfl
      rw [hnil] at h
      exact Option.noConfusion h
    · have hall : ∀ c ∈ s.data, pyWs c = true := pyStripList_eq_nil s.data h0
      have hnone : jsonLoadsList s.data = none := jsonLoadsList_of_all_ws _ hall
      unfold jsonLoads at h
      rw [hnone] at h
      exact Option.noConfusion h
  unfold parseLlmResponse
  rw [if_neg hguard, h]

/-- Claim C4 evaluation: direct well-formed JSON always succeeds on the first
strategy of `_parse_llm_response`, and JSON in a fenced code block or
embedded in prose is recovered by the later strategies; but JSON with a
trailing comma is recovered by none of the four strategies — the chain
returns a parse failure on it. -/
theorem parse_chain_trailing_comma_fails :
    (∀ (s : String) (v : JVal), jsonLoads s = some v → parseLlmResponse s = some v) ∧
    parseLlmResponse "\x7b\"sentiment_score\": 92,\x7d" = none ∧
    parseLlmResponse "```json\n\x7b\"sentiment_score\": 92\x7d\n```" =
      some (JVal.obj [("sentiment_score", JVal.num 92)]) ∧
    parseLlmResponse "The analysis: \x7b\"sentiment_score\": 92\x7d. Regards." =
      some (JVal.obj [("sentiment_score", JVal.num 92)]) :=
  ⟨direct_json_first_strategy, rfl, rfl, rfl⟩

/-- Witness for the universal part of the C4 evaluation. -/
theorem parse_chain_trailing_comma_fails_witness :
    parseLlmResponse "\x7b\"a\": 1\x7d" = some (JVal.obj [("a", JVal.num 1)]) :=
  parse_chain_trailing_comma_fails.1 "\x7b\"a\": 1\x7d" (JVal.obj [("a", JVal.num 1)]) rfl

/-- Claim C3 evaluation: a parsed insight with `risk_level = "bogus"` (and an
in-range score) is coerced to the default risk "Medium"; but a parsed
insight with `sentiment_score = 150` or `sentiment_score = -5` is not
clamped — the `Field(ge=0, le=100)` bound check raises before the clamping
validator runs, in both the direct validation and its fallback, so
`_validate_analysis_result` rejects the insight with `None`. -/
theorem validation_rejects_out_of_range :
    validateAnalysisResult ⟨some "Bullish", some "Solid setup", some 150, some "Low", some []⟩ =
      none ∧
    validateAnalysisResult ⟨some "Bullish", some "Solid setup", some (-5), some "Low", some []⟩ =
      none ∧
    mkAIAnalysisResult ⟨some "Bullish", some "Solid setup", some 50, some "bogus", some []⟩ =
      some ⟨"Bullish", "Solid setup", 50, "Medium", []⟩ :=
  ⟨rfl, rfl, rfl⟩

/-- Claim C1 evaluation: on an open Monday, a wake at 09:56 fires the 10:00
target and stamps the per-date marker; a wake at 11:56 the same day lies in
the 12:00 target's five-minute window with that target not yet executed,
yet does not fire, because the single per-date marker blocks every later
target that day (a wake at 11:56 with the marker clear would have fired);
likewise at 14:26 for the 14:30 target. -/
theorem scheduler_single_daily_marker :
    runContinuousStep none ⟨0, 0, 9, 56, 0, 0⟩ =
      { ran := true, ranTargetHour := some 10, newLastRunDate := some 0 } ∧
    runContinuousStep (some 0) ⟨0, 0, 11, 56, 0, 0⟩ =
      { ran := false, ranTargetHour := some 12, newLastRunDate := some 0 } ∧
    runContinuousStep (some 0) ⟨0, 0, 14, 26, 0, 0⟩ =
      { ran := false, ranTargetHour := some 14, newLastRunDate := some 0 } ∧
    runContinuousStep none ⟨0, 0, 11, 56, 0, 0⟩ =
      { ran := true, ranTargetHour := some 12, newLastRunDate := some 0 } :=
  ⟨by decide, by decide, by decide, by decide⟩
